import Mathlib

/-!
Shallow embedding of the dtp_support name-formatting core.

Python strings are modelled as `List Char` (a Python `str` is a sequence of
Unicode code points, and all characters involved are single code points).
`s[:n]` is `List.take n`, `s[n:]` is `List.drop n`, `s[0]` inside an f-string
is `s.take 1`, `s[1]` is `(s.drop 1).take 1`, `len` is `List.length`, and
string concatenation is `List.append`.
-/

/-- The full-width ideographic blank U+3000 used as the filler glyph. -/
def fullwidthSpace : Char := '　'

/-- A run of `n` full-width filler cells. -/
def filler (n : Nat) : List Char := List.replicate n fullwidthSpace

namespace Pattern5

/-- Embedding of `pattern5.format_name_5chars_rule` (src/pattern5.py). -/
def format_name_5chars_rule (surname given_name : List Char) : List Char :=
  let surname_len := surname.length
  let given_name_len := given_name.length
  if surname_len + given_name_len ≥ 5 then surname ++ given_name
  else if surname_len ≥ 4 then surname ++ given_name
  else if given_name_len ≥ 4 then surname ++ given_name
  else if given_name_len = 1 then
    if surname_len = 1 then surname ++ filler 3 ++ given_name
    else if surname_len = 2 then surname ++ filler 2 ++ given_name
    else if surname_len = 3 then surname ++ filler 1 ++ given_name
    else surname ++ given_name
  else if given_name_len = 2 then
    if surname_len = 1 then surname ++ filler 2 ++ given_name
    else if surname_len = 2 then surname ++ filler 1 ++ given_name
    else surname ++ given_name
  else if given_name_len = 3 then
    if surname_len = 1 then surname ++ filler 1 ++ given_name
    else if surname_len = 2 then surname ++ filler 1 ++ given_name
    else if surname_len = 3 then surname.take 1 ++ filler 1 ++ given_name
    else surname ++ given_name
  else surname ++ given_name

end Pattern5

namespace Pattern7

/-- Embedding of `pattern7.format_name_7chars_rule` (src/pattern7.py). -/
def format_name_7chars_rule (surname given_name : List Char) : List Char :=
  if surname = [] ∨ given_name = [] then surname ++ given_name
  else
    let surname_len := surname.length
    let given_name_len := given_name.length
    if given_name_len ≥ 6 then surname ++ given_name
    else if given_name_len = 5 then
      if surname_len = 1 then surname ++ filler 1 ++ given_name
      else surname ++ given_name
    else if given_name_len = 4 then
      if surname_len = 1 then surname ++ filler 2 ++ given_name
      else if surname_len = 2 then surname ++ filler 1 ++ given_name
      else surname ++ given_name
    else if given_name_len = 3 then
      if surname_len = 1 then surname ++ filler 3 ++ given_name
      else if surname_len = 2 then
        surname.take 1 ++ filler 1 ++ (surname.drop 1).take 1 ++ filler 1 ++ given_name
      else if surname_len = 3 then surname ++ filler 1 ++ given_name
      else surname ++ given_name
    else if given_name_len = 2 then
      if surname_len = 1 then
        surname ++ filler 3 ++ given_name.take 1 ++ filler 1 ++ (given_name.drop 1).take 1
      else if surname_len = 2 then
        surname.take 1 ++ filler 1 ++ (surname.drop 1).take 1 ++ filler 1 ++
          given_name.take 1 ++ filler 1 ++ (given_name.drop 1).take 1
      else if surname_len = 3 then
        surname ++ filler 1 ++ given_name.take 1 ++ filler 1 ++ (given_name.drop 1).take 1
      else if surname_len = 4 then surname ++ filler 1 ++ given_name
      else surname ++ given_name
    else if given_name_len = 1 then
      if surname_len = 1 then surname ++ filler 5 ++ given_name
      else if surname_len = 2 then
        surname.take 1 ++ filler 1 ++ (surname.drop 1).take 1 ++ filler 3 ++ given_name
      else if surname_len = 3 then surname ++ filler 3 ++ given_name
      else if surname_len = 4 then surname ++ filler 2 ++ given_name
      else if surname_len = 5 then surname ++ filler 1 ++ given_name
      else surname ++ given_name
    else surname ++ given_name

end Pattern7

namespace App

/-- Embedding of `app.format_name_7chars_rule` (src/app.py lines 277-356).
Unlike the pattern7 module it has no empty-token guard, and at
(surname length 2, given length 3) it returns surname + one filler + given. -/
def format_name_7chars_rule (surname given_name : List Char) : List Char :=
  let surname_len := surname.length
  let given_name_len := given_name.length
  if given_name_len ≥ 6 then surname ++ given_name
  else if given_name_len = 5 then
    if surname_len = 1 then surname ++ filler 1 ++ given_name
    else surname ++ given_name
  else if given_name_len = 4 then
    if surname_len = 1 then surname ++ filler 2 ++ given_name
    else if surname_len = 2 then surname ++ filler 1 ++ given_name
    else surname ++ given_name
  else if given_name_len = 3 then
    if surname_len = 1 then surname ++ filler 3 ++ given_name
    else if surname_len = 2 then surname ++ filler 1 ++ given_name
    else if surname_len = 3 then surname ++ filler 1 ++ given_name
    else surname ++ given_name
  else if given_name_len = 2 then
    if surname_len = 1 then
      surname ++ filler 3 ++ given_name.take 1 ++ filler 1 ++ (given_name.drop 1).take 1
    else if surname_len = 2 then
      surname.take 1 ++ filler 1 ++ (surname.drop 1).take 1 ++ filler 1 ++
        given_name.take 1 ++ filler 1 ++ (given_name.drop 1).take 1
    else if surname_len = 3 then
      surname ++ filler 1 ++ given_name.take 1 ++ filler 1 ++ (given_name.drop 1).take 1
    else if surname_len = 4 then surname ++ filler 1 ++ given_name
    else surname ++ given_name
  else if given_name_len = 1 then
    if surname_len = 1 then surname ++ filler 5 ++ given_name
    else if surname_len = 2 then
      surname.take 1 ++ filler 1 ++ (surname.drop 1).take 1 ++ filler 3 ++ given_name
    else if surname_len = 3 then surname ++ filler 3 ++ given_name
    else if surname_len = 4 then surname ++ filler 2 ++ given_name
    else if surname_len = 5 then surname ++ filler 1 ++ given_name
    else surname ++ given_name
  else surname ++ given_name

/-- Embedding of `app.format_name` (src/app.py lines 221-275): the 7-char
rule applies only when the target is 7 and the spacing character is the
full-width space; otherwise generic alignment padding with the ASCII
space character, or truncation on overflow. -/
def format_name (surname given_name : List Char) (target_length : Nat)
    (alignment spacing_char : List Char) : List Char :=
  if target_length = 7 ∧ spacing_char = "　".data then
    format_name_7chars_rule surname given_name
  else
    let full_name := surname ++ spacing_char ++ given_name
    let current_length := full_name.length
    if current_length < target_length then
      let padding := target_length - current_length
      if alignment = "中央揃え".data then
        let left_padding := padding / 2
        let right_padding := padding - left_padding
        List.replicate left_padding ' ' ++ full_name ++ List.replicate right_padding ' '
      else if alignment = "左揃え".data then
        full_name ++ List.replicate padding ' '
      else
        List.replicate padding ' ' ++ full_name
    else if current_length = target_length then
      full_name
    else
      full_name.take target_length

/-- Embedding of the surname-search loop in `app.process_name_list`
(src/app.py lines 185-190): Python `range(k, 0, -1)` tried with
`k = min(3, len(full_name))`; returns the first (longest, capped) prefix
length found in the surname set. -/
def findSurnameLen (full_name : List Char) (surname_set : List (List Char)) :
    Nat → Option Nat
  | 0 => none
  | n + 1 =>
    if full_name.take (n + 1) ∈ surname_set then some (n + 1)
    else findSurnameLen full_name surname_set n

/-- Embedding of the split step of `app.process_name_list`
(src/app.py lines 184-197): dictionary prefix match capped at 3 leading
characters, else midpoint auto-split. The Boolean records whether a
dictionary match was found. -/
def tokenize (full_name : List Char) (surname_set : List (List Char)) :
    List Char × List Char × Bool :=
  match findSurnameLen full_name surname_set (min 3 full_name.length) with
  | some n => (full_name.take n, full_name.drop n, true)
  | none =>
    let mid := full_name.length / 2
    (full_name.take mid, full_name.drop mid, false)

/-- Whitespace as stripped by Python `str.strip()` (restricted to the
characters that occur in this development: ASCII whitespace and the
full-width ideographic space). -/
def isPySpace (c : Char) : Bool :=
  c = ' ' || c = '\t' || c = '\n' || c = '\r' || c = fullwidthSpace

/-- Python `str.strip()` on the modelled character set. -/
def pyStrip (s : List Char) : List Char :=
  ((s.dropWhile isPySpace).reverse.dropWhile isPySpace).reverse

/-- Per-row diagnostics appended to the `errors` list by
`app.process_name_list` (the formatted Japanese message text is abstracted
to its kind and payload). -/
inductive Diagnostic where
  | emptyName (rowIndex : Nat)
  | autoSplit (rowIndex : Nat) (fullName surname givenName : List Char)
deriving DecidableEq, Repr

/-- Embedding of the row loop of `app.process_name_list`
(src/app.py lines 171-213): rows are stripped; an empty result appends an
empty-name diagnostic and produces no formatted output; otherwise the name
is split (auto-split appending a diagnostic) and formatted. `rowIndex` is
the 1-based row number used in messages. -/
def processRows (surname_set : List (List Char)) (target_length : Nat)
    (alignment spacing_char : List Char) :
    Nat → List (List Char) → List (Nat × List Char) × List Diagnostic
  | _, [] => ([], [])
  | i, row :: rest =>
    let res := processRows surname_set target_length alignment spacing_char (i + 1) rest
    let full_name := pyStrip row
    if full_name = [] then
      (res.1, Diagnostic.emptyName i :: res.2)
    else
      let t := tokenize full_name surname_set
      let formatted := format_name t.1 t.2.1 target_length alignment spacing_char
      if t.2.2 then
        ((i, formatted) :: res.1, res.2)
      else
        ((i, formatted) :: res.1, Diagnostic.autoSplit i full_name t.1 t.2.1 :: res.2)

/-- Embedding of `app.process_name_list` option handling
(src/app.py lines 157-204): the 5-character option selects target length 5
(otherwise 7), and the spacing character is the full-width space exactly for
the widen option. -/
def process_name_list (rows : List (List Char)) (surname_list : List (List Char))
    (char_count_option alignment_option spacing_option : List Char) :
    List (Nat × List Char) × List Diagnostic :=
  let target_length := if char_count_option = "5字取り".data then 5 else 7
  let spacing_char := if spacing_option = "空ける".data then "　".data else ([] : List Char)
  processRows surname_list target_length alignment_option spacing_char 1 rows

end App

/-- The (surname length, given length) pairs for which the width-7 rule
table declares a layout other than plain concatenation (spec section 4.3). -/
def width7_applies (slen glen : Nat) : Prop :=
  (glen = 5 ∧ slen = 1) ∨
  (glen = 4 ∧ (slen = 1 ∨ slen = 2)) ∨
  (glen = 3 ∧ (slen = 1 ∨ slen = 2 ∨ slen = 3)) ∨
  (glen = 2 ∧ (slen = 1 ∨ slen = 2 ∨ slen = 3 ∨ slen = 4)) ∨
  (glen = 1 ∧ (slen = 1 ∨ slen = 2 ∨ slen = 3 ∨ slen = 4 ∨ slen = 5))

instance (slen glen : Nat) : Decidable (width7_applies slen glen) := by
  unfold width7_applies; infer_instance

example : Pattern5.format_name_5chars_rule "鈴".data "一".data = "鈴　　　一".data := by decide

example : App.tokenize "佐藤太郎".data ["佐藤".data, "鈴木".data] =
    ("佐藤".data, "太郎".data, true) := by decide

/-- Claim C1: at target width 5 with the full-width filler configured,
`app.format_name` does not invoke the width-5 rule table: it applies the
generic centre padding (with ASCII spaces) and its output differs from
`format_name_5chars_rule` on the tests' own example. -/
theorem format_name_width5_ignores_rule_table :
    App.format_name "鈴".data "一".data 5 "中央揃え".data "　".data = " 鈴　一 ".data ∧
    Pattern5.format_name_5chars_rule "鈴".data "一".data = "鈴　　　一".data ∧
    App.format_name "鈴".data "一".data 5 "中央揃え".data "　".data ≠
      Pattern5.format_name_5chars_rule "鈴".data "一".data := by decide

/-- Claim C3: the tokenizer caps the dictionary prefix search at 3 leading
characters, so the 4-character dictionary surname is never considered and
the split returns the 1-character surname instead of the longest match. -/
theorem tokenize_cap_example :
    App.tokenize "小比類巻太郎".data ["小".data, "小比類巻".data] =
      ("小".data, "比類巻太郎".data, true) := by decide

/-- Claim C7: the tokens returned by the split step concatenate to the
original full name exactly, in both the dictionary-match and the midpoint
auto-split cases. -/
theorem tokenize_reconstructs (full_name : List Char) (surname_set : List (List Char)) :
    (App.tokenize full_name surname_set).1 ++ (App.tokenize full_name surname_set).2.1 =
      full_name := by
  unfold App.tokenize
  cases h : App.findSurnameLen full_name surname_set (min 3 full_name.length) <;>
    simp [h, List.take_append_drop]

/-- Claim C8: for a 3-character surname and 3-character given name the
width-5 formatter returns the plain concatenation: the combined-length
guard fires first, so the first-character-truncation branch is dead code. -/
theorem width5_33_returns_concat (s g : List Char) (hs : s.length = 3)
    (hg : g.length = 3) :
    Pattern5.format_name_5chars_rule s g = s ++ g := by
  simp [Pattern5.format_name_5chars_rule, hs, hg]

/-- Witness for `width5_33_returns_concat` at the concrete pair. -/
theorem width5_33_returns_concat_witness :
    Pattern5.format_name_5chars_rule "高橋田".data "一二三".data =
      "高橋田".data ++ "一二三".data :=
  width5_33_returns_concat "高橋田".data "一二三".data (by decide) (by decide)

/-- Claim C10: an empty surname or empty given name makes both width-7
formatters return the plain concatenation with no filler. -/
theorem empty_token_concatenates (s g : List Char) (h : s = [] ∨ g = []) :
    App.format_name_7chars_rule s g = s ++ g ∧
      Pattern7.format_name_7chars_rule s g = s ++ g := by
  constructor
  · rcases h with h | h <;> subst h <;> simp [App.format_name_7chars_rule]
  · unfold Pattern7.format_name_7chars_rule
    rw [if_pos h]

/-- Witness for `empty_token_concatenates` with an empty surname. -/
theorem empty_token_concatenates_witness :
    App.format_name_7chars_rule [] "太".data = [] ++ "太".data ∧
      Pattern7.format_name_7chars_rule [] "太".data = [] ++ "太".data :=
  empty_token_concatenates [] "太".data (Or.inl rfl)

/-- Claim C4 counterexample: a blank first row is skipped from the output
but produces an empty-name diagnostic, so the diagnostics list is not
empty as the claim asserts. -/
theorem blank_row_counterexample :
    App.process_name_list [[], "佐藤太郎".data] ["佐藤".data]
        "5字取り".data "中央揃え".data "通常".data =
      ([(2, "佐藤太郎 ".data)], [App.Diagnostic.emptyName 1]) ∧
    (App.process_name_list [[], "佐藤太郎".data] ["佐藤".data]
        "5字取り".data "中央揃え".data "通常".data).2 ≠ [] := by decide

/-- Claim C4 (amended): a blank or whitespace-only row produces no output
entry and does not abort the batch, but it appends exactly one empty-name
diagnostic; the remaining rows are processed unchanged. -/
theorem blank_row_skipped_with_diagnostic (surname_set : List (List Char))
    (target_length : Nat) (alignment spacing_char : List Char) (i : Nat)
    (row : List Char) (rows : List (List Char)) (h : App.pyStrip row = []) :
    App.processRows surname_set target_length alignment spacing_char i (row :: rows) =
      ((App.processRows surname_set target_length alignment spacing_char (i + 1) rows).1,
        App.Diagnostic.emptyName i ::
          (App.processRows surname_set target_length alignment spacing_char (i + 1) rows).2) := by
  simp [App.processRows, h]

/-- Witness for `blank_row_skipped_with_diagnostic` on a single blank row. -/
theorem blank_row_skipped_with_diagnostic_witness :
    App.processRows ["佐藤".data] 5 "中央揃え".data [] 1 [[]] =
      ((App.processRows ["佐藤".data] 5 "中央揃え".data [] 2 []).1,
        App.Diagnostic.emptyName 1 ::
          (App.processRows ["佐藤".data] 5 "中央揃え".data [] 2 []).2) :=
  blank_row_skipped_with_diagnostic ["佐藤".data] 5 "中央揃え".data [] 1 [] [] (by decide)

/-- Claim C2 counterexample: the empty surname together with a 1-character
given name lies inside the guarded width-5 region (and is not the 3/3
case), yet the formatter returns a string of length 1, not 5. -/
theorem width5_region_empty_token_counterexample :
    (([] : List Char).length + "太".data.length < 5 ∧ ([] : List Char).length < 4 ∧
      "太".data.length < 4 ∧
      ¬(([] : List Char).length = 3 ∧ "太".data.length = 3)) ∧
    (Pattern5.format_name_5chars_rule [] "太".data).length ≠ 5 := by decide

/-- Claim C2 (amended): for non-empty surname and given-name tokens inside
the guarded width-5 region (combined length below 5, each below 4,
excluding the 3/3 pair), the width-5 formatter's output has length
exactly 5. -/
theorem width5_exact_nonempty_region (s g : List Char) (hs : s ≠ []) (hg : g ≠ [])
    (hsum : s.length + g.length < 5) (hs4 : s.length < 4) (hg4 : g.length < 4)
    (h33 : ¬(s.length = 3 ∧ g.length = 3)) :
    (Pattern5.format_name_5chars_rule s g).length = 5 := by
  have hs1 : 0 < s.length := List.length_pos.mpr hs
  have hg1 : 0 < g.length := List.length_pos.mpr hg
  have hscases : s.length = 1 ∨ s.length = 2 ∨ s.length = 3 := by omega
  have hgcases : g.length = 1 ∨ g.length = 2 ∨ g.length = 3 := by omega
  rcases hscases with h1 | h1 | h1 <;> rcases hgcases with h2 | h2 | h2 <;>
    simp [Pattern5.format_name_5chars_rule, h1, h2, filler] <;> omega

/-- Witness for `width5_exact_nonempty_region` at a 1/1 pair. -/
theorem width5_exact_nonempty_region_witness :
    (Pattern5.format_name_5chars_rule "佐".data "太".data).length = 5 :=
  width5_exact_nonempty_region "佐".data "太".data (by decide) (by decide)
    (by decide) (by decide) (by decide) (by decide)

/-- Claim C6: whenever the width-7 rule table declares a layout (given name
shorter than 6 and surname length within the tabulated range), the output
of the pattern7 formatter is exactly 7 characters long. -/
theorem width7_exact (s g : List Char) (h : width7_applies s.length g.length) :
    (Pattern7.format_name_7chars_rule s g).length = 7 := by
  have hs0 : s ≠ [] := by
    rw [← List.length_pos]
    unfold width7_applies at h
    omega
  have hg0 : g ≠ [] := by
    rw [← List.length_pos]
    unfold width7_applies at h
    omega
  unfold width7_applies at h
  rcases h with ⟨hg2, hs2⟩ | ⟨hg2, hs2 | hs2⟩ | ⟨hg2, hs2 | hs2 | hs2⟩ |
      ⟨hg2, hs2 | hs2 | hs2 | hs2⟩ | ⟨hg2, hs2 | hs2 | hs2 | hs2 | hs2⟩ <;>
    simp [Pattern7.format_name_7chars_rule, hs0, hg0, hs2, hg2, filler] <;> omega

/-- Witness for `width7_exact` at a 2/2 pair. -/
theorem width7_exact_witness :
    width7_applies "佐藤".data.length "太郎".data.length ∧
      (Pattern7.format_name_7chars_rule "佐藤".data "太郎".data).length = 7 :=
  ⟨by decide, width7_exact "佐藤".data "太郎".data (by decide)⟩

/-- Claim C5 counterexample: at a 2-character surname and 3-character given
name the two width-7 implementations disagree: app returns surname + one
filler + given (6 cells) while pattern7 returns the split-surname layout
(7 cells). -/
theorem width7_implementations_differ :
    App.format_name_7chars_rule "佐藤".data "太郎助".data = "佐藤　太郎助".data ∧
    Pattern7.format_name_7chars_rule "佐藤".data "太郎助".data = "佐　藤　太郎助".data ∧
    App.format_name_7chars_rule "佐藤".data "太郎助".data ≠
      Pattern7.format_name_7chars_rule "佐藤".data "太郎助".data := by decide

/-- Claim C5 (amended): outside the single divergent cell (surname length 2,
given length 3), the two width-7 implementations compute the same
function. -/
theorem width7_implementations_agree (s g : List Char)
    (h : ¬(s.length = 2 ∧ g.length = 3)) :
    App.format_name_7chars_rule s g = Pattern7.format_name_7chars_rule s g := by
  by_cases hs : s = []
  · subst hs
    simp [App.format_name_7chars_rule, Pattern7.format_name_7chars_rule]
  by_cases hg : g = []
  · subst hg
    simp [App.format_name_7chars_rule, Pattern7.format_name_7chars_rule]
  have hs1 : 0 < s.length := List.length_pos.mpr hs
  have hg1 : 0 < g.length := List.length_pos.mpr hg
  have hgc : g.length ≥ 6 ∨ g.length = 5 ∨ g.length = 4 ∨ g.length = 3 ∨
      g.length = 2 ∨ g.length = 1 := by omega
  rcases hgc with hg2 | hg2 | hg2 | hg2 | hg2 | hg2
  · simp [App.format_name_7chars_rule, Pattern7.format_name_7chars_rule, hs, hg, hg2]
  · simp [App.format_name_7chars_rule, Pattern7.format_name_7chars_rule, hs, hg, hg2]
  · simp [App.format_name_7chars_rule, Pattern7.format_name_7chars_rule, hs, hg, hg2]
  · have hs2 : s.length ≠ 2 := by omega
    simp [App.format_name_7chars_rule, Pattern7.format_name_7chars_rule, hs, hg, hg2, hs2]
  · simp [App.format_name_7chars_rule, Pattern7.format_name_7chars_rule, hs, hg, hg2]
  · simp [App.format_name_7chars_rule, Pattern7.format_name_7chars_rule, hs, hg, hg2]

/-- Witness for `width7_implementations_agree` at a 1/1 pair. -/
theorem width7_implementations_agree_witness :
    App.format_name_7chars_rule "佐".data "太".data =
      Pattern7.format_name_7chars_rule "佐".data "太".data :=
  width7_implementations_agree "佐".data "太".data (by decide)

/-- Claim C9 counterexample: the generic padder pads with the ASCII space,
which is neither a character of the surname or given name nor the
full-width blank. -/
theorem generic_padding_uses_ascii_space :
    ' ' ∈ App.format_name "鈴".data "一".data 5 "中央揃え".data [] ∧
    ' ' ∉ "鈴".data ∧ ' ' ∉ "一".data ∧ ' ' ≠ fullwidthSpace := by decide

/-- Helper: a pattern5 rule-table output is contained in
surname ++ given name ++ the singleton full-width blank. -/
theorem p5_subset (s g : List Char) :
    Pattern5.format_name_5chars_rule s g ⊆ s ++ g ++ [fullwidthSpace] := by
  have h1 : s ⊆ s ++ g ++ [fullwidthSpace] := by intro a ha; simp [ha]
  have h2 : g ⊆ s ++ g ++ [fullwidthSpace] := by intro a ha; simp [ha]
  have h3 : ∀ n, filler n ⊆ s ++ g ++ [fullwidthSpace] := by
    intro n a ha
    rw [filler, List.mem_replicate] at ha
    simp [ha.2]
  have h4 : s.take 1 ⊆ s ++ g ++ [fullwidthSpace] :=
    fun a ha => h1 (List.take_subset 1 s ha)
  have hgc : 6 ≤ g.length ∨ g.length = 5 ∨ g.length = 4 ∨ g.length = 3 ∨
      g.length = 2 ∨ g.length = 1 ∨ g.length = 0 := by omega
  have hsc : 6 ≤ s.length ∨ s.length = 5 ∨ s.length = 4 ∨ s.length = 3 ∨
      s.length = 2 ∨ s.length = 1 ∨ s.length = 0 := by omega
  simp only [Pattern5.format_name_5chars_rule]
  rcases hgc with hg2 | hg2 | hg2 | hg2 | hg2 | hg2 | hg2 <;>
    rcases hsc with hs2 | hs2 | hs2 | hs2 | hs2 | hs2 | hs2 <;>
    simp only [hg2, hs2, ge_iff_le, Nat.reduceLeDiff, Nat.reduceEqDiff, reduceIte,
      if_true, if_false]
  all_goals try (repeat' split)
  all_goals simp only [List.append_subset]
  all_goals try (repeat' constructor)
  all_goals first
    | exact h1
    | exact h2
    | exact h3 _
    | exact h4

/-- Helper: a pattern7 rule-table output is contained in
surname ++ given name ++ the singleton full-width blank. -/
theorem p7_subset (s g : List Char) :
    Pattern7.format_name_7chars_rule s g ⊆ s ++ g ++ [fullwidthSpace] := by
  have h1 : s ⊆ s ++ g ++ [fullwidthSpace] := by intro a ha; simp [ha]
  have h2 : g ⊆ s ++ g ++ [fullwidthSpace] := by intro a ha; simp [ha]
  have h3 : ∀ n, filler n ⊆ s ++ g ++ [fullwidthSpace] := by
    intro n a ha
    rw [filler, List.mem_replicate] at ha
    simp [ha.2]
  have h4 : s.take 1 ⊆ s ++ g ++ [fullwidthSpace] :=
    fun a ha => h1 (List.take_subset 1 s ha)
  have h5 : g.take 1 ⊆ s ++ g ++ [fullwidthSpace] :=
    fun a ha => h2 (List.take_subset 1 g ha)
  have h6 : (s.drop 1).take 1 ⊆ s ++ g ++ [fullwidthSpace] :=
    fun a ha => h1 (List.drop_subset 1 s (List.take_subset 1 (s.drop 1) ha))
  have h7 : (g.drop 1).take 1 ⊆ s ++ g ++ [fullwidthSpace] :=
    fun a ha => h2 (List.drop_subset 1 g (List.take_subset 1 (g.drop 1) ha))
  have hgc : 6 ≤ g.length ∨ g.length = 5 ∨ g.length = 4 ∨ g.length = 3 ∨
      g.length = 2 ∨ g.length = 1 ∨ g.length = 0 := by omega
  have hsc : 6 ≤ s.length ∨ s.length = 5 ∨ s.length = 4 ∨ s.length = 3 ∨
      s.length = 2 ∨ s.length = 1 ∨ s.length = 0 := by omega
  simp only [Pattern7.format_name_7chars_rule]
  by_cases h0 : s = [] ∨ g = []
  · rw [if_pos h0]
    exact List.append_subset.mpr ⟨h1, h2⟩
  rw [if_neg h0]
  rcases hgc with hg2 | hg2 | hg2 | hg2 | hg2 | hg2 | hg2 <;>
    rcases hsc with hs2 | hs2 | hs2 | hs2 | hs2 | hs2 | hs2 <;>
    simp only [hg2, hs2, ge_iff_le, Nat.reduceLeDiff, Nat.reduceEqDiff, reduceIte,
      if_true, if_false]
  all_goals try (repeat' split)
  all_goals simp only [List.append_subset]
  all_goals try (repeat' constructor)
  all_goals first
    | exact h1
    | exact h2
    | exact h3 _
    | exact h4
    | exact h5
    | exact h6
    | exact h7

/-- Helper: an app width-7 rule output is contained in
surname ++ given name ++ the singleton full-width blank. -/
theorem app7_subset (s g : List Char) :
    App.format_name_7chars_rule s g ⊆ s ++ g ++ [fullwidthSpace] := by
  have h1 : s ⊆ s ++ g ++ [fullwidthSpace] := by intro a ha; simp [ha]
  have h2 : g ⊆ s ++ g ++ [fullwidthSpace] := by intro a ha; simp [ha]
  have h3 : ∀ n, filler n ⊆ s ++ g ++ [fullwidthSpace] := by
    intro n a ha
    rw [filler, List.mem_replicate] at ha
    simp [ha.2]
  have h4 : s.take 1 ⊆ s ++ g ++ [fullwidthSpace] :=
    fun a ha => h1 (List.take_subset 1 s ha)
  have h5 : g.take 1 ⊆ s ++ g ++ [fullwidthSpace] :=
    fun a ha => h2 (List.take_subset 1 g ha)
  have h6 : (s.drop 1).take 1 ⊆ s ++ g ++ [fullwidthSpace] :=
    fun a ha => h1 (List.drop_subset 1 s (List.take_subset 1 (s.drop 1) ha))
  have h7 : (g.drop 1).take 1 ⊆ s ++ g ++ [fullwidthSpace] :=
    fun a ha => h2 (List.drop_subset 1 g (List.take_subset 1 (g.drop 1) ha))
  have hgc : 6 ≤ g.length ∨ g.length = 5 ∨ g.length = 4 ∨ g.length = 3 ∨
      g.length = 2 ∨ g.length = 1 ∨ g.length = 0 := by omega
  have hsc : 6 ≤ s.length ∨ s.length = 5 ∨ s.length = 4 ∨ s.length = 3 ∨
      s.length = 2 ∨ s.length = 1 ∨ s.length = 0 := by omega
  simp only [App.format_name_7chars_rule]
  rcases hgc with hg2 | hg2 | hg2 | hg2 | hg2 | hg2 | hg2 <;>
    rcases hsc with hs2 | hs2 | hs2 | hs2 | hs2 | hs2 | hs2 <;>
    simp only [hg2, hs2, ge_iff_le, Nat.reduceLeDiff, Nat.reduceEqDiff, reduceIte,
      if_true, if_false]
  all_goals try (repeat' split)
  all_goals simp only [List.append_subset]
  all_goals try (repeat' constructor)
  all_goals first
    | exact h1
    | exact h2
    | exact h3 _
    | exact h4
    | exact h5
    | exact h6
    | exact h7

/-- Claim C9 (amended): the rule-table formatters (width 5 and both width-7
variants) emit only characters of the surname, characters of the given
name, or the full-width blank U+3000; only the generic padder introduces
the ASCII space. -/
theorem rule_table_output_chars (s g : List Char) (c : Char) :
    (c ∈ Pattern5.format_name_5chars_rule s g → c ∈ s ∨ c ∈ g ∨ c = fullwidthSpace) ∧
    (c ∈ Pattern7.format_name_7chars_rule s g → c ∈ s ∨ c ∈ g ∨ c = fullwidthSpace) ∧
    (c ∈ App.format_name_7chars_rule s g → c ∈ s ∨ c ∈ g ∨ c = fullwidthSpace) := by
  refine ⟨fun hc => ?_, fun hc => ?_, fun hc => ?_⟩
  · have h := p5_subset s g hc
    simpa only [List.mem_append, List.mem_singleton, or_assoc] using h
  · have h := p7_subset s g hc
    simpa only [List.mem_append, List.mem_singleton, or_assoc] using h
  · have h := app7_subset s g hc
    simpa only [List.mem_append, List.mem_singleton, or_assoc] using h

/-- Witness for `rule_table_output_chars` at a concrete character. -/
theorem rule_table_output_chars_witness :
    '佐' ∈ "佐".data ∨ '佐' ∈ "太".data ∨ '佐' = fullwidthSpace :=
  (rule_table_output_chars "佐".data "太".data '佐').1 (by decide)
